import Mathlib

/-!
Verification of the `freebsd-csi` test and operations tooling.

The Python sources are shallowly embedded: pure helpers become Lean
functions on `List Char` / `String`, command execution is abstracted into
an environment record holding each command's raw output (`none` models a
`subprocess.CalledProcessError`), and Python exceptions that escape a
function are modelled with `Except Unit`.

Embedded modules:
* `e2e-tests/lib/storage_monitor.py` - `_parse_size`, the dataset /
  snapshot / LUN / port inventory builders, `get_ctld_config`,
  `capture_state`, `diff_state`, the brace-matching block scanner and the
  auth-group parser;
* `e2e-tests/lib/resource_tracker.py` - `ResourceType`, the tracker and
  the ordering used by `cleanup_all`;
* `scripts/reconcile.py` - `find_orphans`, `delete_orphans` and the exit
  code computed by `main`.
-/

namespace FreebsdCsi

deriving instance DecidableEq for Except

/-! ## Python primitives

`pyWs` is Python's `str.strip` / regex `\s` whitespace class restricted to
the ASCII strings this tooling handles.  `pyIntParse` models `int(s)` for
such strings: surrounding whitespace is ignored, an optional sign is
allowed, and digit groups may be separated by single underscores; the
result is `none` exactly when `int` raises `ValueError`. -/

def pyWs (c : Char) : Bool :=
  c = ' ' || c = '\t' || c = '\n' || c = '\r' || c = '\x0b' || c = '\x0c'

def stripWs (s : List Char) : List Char :=
  ((s.dropWhile pyWs).reverse.dropWhile pyWs).reverse

def digitVal (c : Char) : Nat := c.toNat - '0'.toNat

def digitsVal (ds : List Char) : Nat :=
  ds.foldl (fun acc c => 10 * acc + digitVal c) 0

/-- After the first digit of a Python integer literal: digits, with each
underscore followed by a digit. -/
def pyDigitsTail : List Char → Bool
  | [] => true
  | '_' :: c :: rest => c.isDigit && pyDigitsTail rest
  | ['_'] => false
  | c :: rest => c.isDigit && pyDigitsTail rest

def pyDigitsOk : List Char → Bool
  | [] => false
  | c :: rest => c.isDigit && pyDigitsTail rest

def pyDigitsNat (ds : List Char) : Nat :=
  digitsVal (ds.filter (fun c => c ≠ '_'))

def pyIntParse (s : List Char) : Option Int :=
  match stripWs s with
  | '+' :: rest => if pyDigitsOk rest then some (Int.ofNat (pyDigitsNat rest)) else none
  | '-' :: rest => if pyDigitsOk rest then some (-(Int.ofNat (pyDigitsNat rest))) else none
  | rest => if pyDigitsOk rest then some (Int.ofNat (pyDigitsNat rest)) else none

/-- ASCII `str.upper`. -/
def pyUpper (c : Char) : Char :=
  if 'a' ≤ c && c ≤ 'z' then Char.ofNat (c.toNat - 32) else c

/-- ASCII `str.lower`. -/
def pyLower (c : Char) : Char :=
  if 'A' ≤ c && c ≤ 'Z' then Char.ofNat (c.toNat + 32) else c

/-! ## `StorageMonitor._parse_size`

`_parse_size` first tries `int(size_str)` (arbitrary precision, sign
allowed); on `ValueError` it matches `^(\d+(?:\.\d+)?)\s*([KMGT])?$`
against the uppercased input and returns `int(float(group(1)) * mult)`.
The character classes of the regex are pairwise disjoint, so the greedy
left-to-right procedure below is its exact semantics.

`float(group(1))` is CPython's correctly rounded decimal-to-binary64
conversion: round to nearest, ties to even, overflowing to `inf`.  It is
modelled exactly by `floatBits` on the literal's value `num / den`, the
rounded 53-bit significand and exponent computed with integer
arithmetic.  (Values below the binary64 normal range are kept at full
precision instead of subnormal rounding; this is observationally equal
here, since any value below `2 ^ (-42)` still truncates to 0 after the
at-most-`2 ^ 40` multiplier.)  The multipliers `1024 .. 1024 ^ 4` are
powers of two, so `value *= multipliers[suffix]` scales the exponent
exactly, overflowing to `inf` exactly when the scaled value reaches
`2 ^ 1024`; `int(value)` then truncates toward zero, or raises
`OverflowError` on `inf` - the one exception `_parse_size` can raise,
modelled as `Except.error ()`. -/

/-- `⌊log2 n⌋` via bounded fuel (`n` itself bounds the bit length), so
that it is structurally recursive and evaluates in the kernel. -/
def log2Fuel : Nat → Nat → Nat
  | 0, _ => 0
  | fuel + 1, n => if 2 ≤ n then log2Fuel fuel (n / 2) + 1 else 0

def natLog2 (n : Nat) : Nat := log2Fuel n n

/-- Is `a / b ≥ 2 ^ e`? (for `a b > 0`, `e : Int`). -/
def ratGE (a b : Nat) (e : Int) : Bool :=
  if 0 ≤ e then decide (b * 2 ^ e.toNat ≤ a) else decide (b ≤ a * 2 ^ (-e).toNat)

/-- Round `num / den` to the nearest integer, ties to even (`den > 0`). -/
def roundNearestEven (num den : Nat) : Nat :=
  if den < 2 * (num % den) then num / den + 1
  else if 2 * (num % den) < den then num / den
  else if num / den % 2 = 0 then num / den else num / den + 1

/-- Round the positive rational `a / b` to the binary64 grid (round to
nearest, ties to even, unbounded exponent): returns `(m, e)` with
`2 ^ 52 ≤ m < 2 ^ 53` and value `m * 2 ^ (e - 52)`; the IEEE conversion
overflows to `inf` exactly when `e ≥ 1024`. -/
def floatBits (a b : Nat) : Nat × Int :=
  let e0 : Int := (natLog2 a : Int) - (natLog2 b : Int)
  let e : Int := if ratGE a b e0 then e0 else e0 - 1
  let num := if 0 ≤ 52 - e then a * 2 ^ (52 - e).toNat else a
  let den := if 0 ≤ 52 - e then b else b * 2 ^ (e - 52).toNat
  let m := roundNearestEven num den
  if m = 2 ^ 53 then (2 ^ 52, e + 1) else (m, e)

/-- `\s*([KMGT])?$` : skip whitespace, then an optional suffix letter and
end of input.  Returns the suffix when the tail matches. -/
def suffixTail (rest : List Char) : Option (Option Char) :=
  match rest.dropWhile pyWs with
  | [] => some none
  | [c] => if c = 'K' || c = 'M' || c = 'G' || c = 'T' then some (some c) else none
  | _ => none

/-- Match `^(\d+(?:\.\d+)?)\s*([KMGT])?$`, returning the numeric value as
`(numerator, denominator)` together with the optional suffix. -/
def suffixMatch (s : List Char) : Option (Nat × Nat × Option Char) :=
  let ds := s.takeWhile Char.isDigit
  let rest := s.dropWhile Char.isDigit
  if ds = [] then none
  else
    match rest with
    | '.' :: r2 =>
        let fs := r2.takeWhile Char.isDigit
        if fs = [] then none
        else
          match suffixTail (r2.dropWhile Char.isDigit) with
          | some suf => some (digitsVal ds * 10 ^ fs.length + digitsVal fs, 10 ^ fs.length, suf)
          | none => none
    | _ =>
        match suffixTail rest with
        | some suf => some (digitsVal ds, 1, suf)
        | none => none

def sizeMultiplier : Option Char → Nat
  | some 'K' => 1024
  | some 'M' => 1024 ^ 2
  | some 'G' => 1024 ^ 3
  | some 'T' => 1024 ^ 4
  | _ => 1

/-- `int(float(a / b) * mult)` for the matched literal `a / b ≥ 0` and a
power-of-two multiplier `mult` (the table's `1024 ^ k`): the scaled
exponent is `e + log2 mult`; at `1024` and beyond the value is `inf` and
`int` raises `OverflowError`, otherwise `int` truncates the exact value
`m * 2 ^ (e + log2 mult - 52)` toward zero. -/
def floatToInt (a b mult : Nat) : Except Unit Int :=
  if a = 0 then Except.ok 0
  else if 1024 ≤ (floatBits a b).2 + (natLog2 mult : Int) then Except.error ()
  else if 52 ≤ (floatBits a b).2 + (natLog2 mult : Int) then
    Except.ok (((floatBits a b).1 *
      2 ^ ((floatBits a b).2 + (natLog2 mult : Int) - 52).toNat : Nat) : Int)
  else
    Except.ok (((floatBits a b).1 /
      2 ^ (52 - ((floatBits a b).2 + (natLog2 mult : Int))).toNat : Nat) : Int)

/-- `StorageMonitor._parse_size`: bytes from a ZFS size string;
`Except.error ()` is the `OverflowError` escaping from `int(value)`. -/
def parse_size (size_str : String) : Except Unit Int :=
  if size_str.data = [] ∨ size_str.data = ['-'] then Except.ok 0
  else
    match pyIntParse size_str.data with
    | some n => Except.ok n
    | none =>
        match suffixMatch (size_str.data.map pyUpper) with
        | some (num, den, suf) => floatToInt num den (sizeMultiplier suf)
        | none => Except.ok 0

/-! ## Data model (`storage_monitor.py` dataclasses) -/

structure DatasetInfo where
  name : String
  type : String
  used : Int
  available : Int
  referenced : Int
  volsize : Option Int := none
  origin : Option String := none
  clones : List String := []
deriving DecidableEq

structure SnapshotInfo where
  name : String
  dataset : String
  snap_name : String
  used : Int
  referenced : Int
  clones : List String := []
deriving DecidableEq

structure LunInfo where
  lun_id : Int
  backend : String
  serial : String
  device_id : String
  size : Int
  blocksize : Int
  path : Option String := none
deriving DecidableEq

structure PortInfo where
  port_id : Nat
  port_type : String
  target_name : String
  online : Bool
deriving DecidableEq

structure StorageState where
  datasets : List DatasetInfo
  snapshots : List SnapshotInfo
  luns : List LunInfo
  ports : List PortInfo
  ctld_config : String
deriving DecidableEq

/-! ## Inventory builders

Each builder receives the raw output of its command as `Option String`
(`none` models a `subprocess.CalledProcessError`, which the builder
catches and turns into `[]`).  A Python exception escaping a builder
(e.g. `ValueError` from `int(...)` on a garbage field, or a tuple-unpack
error on a line with too many fields) is `Except.error ()`. -/

/-- `int(s)` where `ValueError` propagates. -/
def pyIntField (s : List Char) : Except Unit Int :=
  match pyIntParse s with
  | some n => Except.ok n
  | none => Except.error ()

/-- `StorageMonitor.list_datasets`: parse one `zfs list -H -p` line.
`ok none` means the line was skipped (`continue`). -/
def parseDatasetLine (line : List Char) : Except Unit (Option DatasetInfo) :=
  if line = [] then Except.ok none
  else if (line.splitOn '\t').length < 8 then Except.ok none
  else
    match line.splitOn '\t' with
    | [name, dtype, used, avail, refer, volsize, origin, clones] => do
        let usedV ← if used = ['-'] then Except.ok 0 else pyIntField used
        let availV ← if avail = ['-'] then Except.ok 0 else pyIntField avail
        let referV ← if refer = ['-'] then Except.ok 0 else pyIntField refer
        let volsizeV ← if volsize = [] || volsize = ['-'] then Except.ok none
                       else (pyIntField volsize).map some
        Except.ok (some
          { name := name.asString
            type := dtype.asString
            used := usedV
            available := availV
            referenced := referV
            volsize := volsizeV
            origin := if origin = [] || origin = ['-'] then none else some origin.asString
            clones := if clones = [] || clones = ['-'] then []
                      else (clones.splitOn ',').map List.asString })
    | _ => Except.error ()

def parseDatasetLines : List (List Char) → Except Unit (List DatasetInfo)
  | [] => Except.ok []
  | l :: ls => do
      let r ← parseDatasetLine l
      let rest ← parseDatasetLines ls
      match r with
      | none => Except.ok rest
      | some d => Except.ok (d :: rest)

def list_datasets (cmdOut : Option String) : Except Unit (List DatasetInfo) :=
  match cmdOut with
  | none => Except.ok []
  | some out => parseDatasetLines ((stripWs out.toList).splitOn '\n')

/-- `str.rsplit(sep, 1)` on a string known to contain `sep`. -/
def rsplitOnce (sep : Char) (s : List Char) : List Char × List Char :=
  let revAfter := s.reverse.takeWhile (fun c => c ≠ sep)
  (s.take (s.length - revAfter.length - 1), revAfter.reverse)

/-- `StorageMonitor.list_snapshots`: parse one snapshot line. -/
def parseSnapshotLine (line : List Char) : Except Unit (Option SnapshotInfo) :=
  if line = [] then Except.ok none
  else if (line.splitOn '\t').length < 4 then Except.ok none
  else
    match line.splitOn '\t' with
    | [name, used, refer, clones] =>
        if name.contains '@' = false then Except.ok none
        else do
          let usedV ← if used = ['-'] then Except.ok 0 else pyIntField used
          let referV ← if refer = ['-'] then Except.ok 0 else pyIntField refer
          let parts := rsplitOnce '@' name
          Except.ok (some
            { name := name.asString
              dataset := parts.1.asString
              snap_name := parts.2.asString
              used := usedV
              referenced := referV
              clones := if clones = [] || clones = ['-'] then []
                        else (clones.splitOn ',').map List.asString })
    | _ => Except.error ()

def parseSnapshotLines : List (List Char) → Except Unit (List SnapshotInfo)
  | [] => Except.ok []
  | l :: ls => do
      let r ← parseSnapshotLine l
      let rest ← parseSnapshotLines ls
      match r with
      | none => Except.ok rest
      | some d => Except.ok (d :: rest)

def list_snapshots (cmdOut : Option String) : Except Unit (List SnapshotInfo) :=
  match cmdOut with
  | none => Except.ok []
  | some out => parseSnapshotLines ((stripWs out.toList).splitOn '\n')

/-- A `<lun>` element of `ctladm devlist -x` output.  The ElementTree XML
layer is abstracted: the environment provides the lun elements of a
well-formed document (`idAttr` is the `id` attribute, `fields` maps a
child tag to its text). -/
structure LunElem where
  idAttr : Option String := none
  fields : List (String × String) := []

/-- `get_text` of `list_ctl_luns`: child text, or the default when the
child is missing or its text empty. -/
def lunGetText (e : LunElem) (tag : String) (dflt : String) : String :=
  match e.fields.lookup tag with
  | some t => if t = "" then dflt else t
  | none => dflt

/-- `get_int` of `list_ctl_luns`: `int(get_text(tag, str(default)))` with
`ValueError` caught and mapped to the default. -/
def lunGetInt (e : LunElem) (tag : String) (dflt : Int) : Int :=
  match pyIntParse (lunGetText e tag (toString dflt)).toList with
  | some n => n
  | none => dflt

/-- Build one `LunInfo`; `int(lun_elem.get("id", -1))` raises on a
non-numeric `id` attribute. -/
def buildLun (e : LunElem) : Except Unit LunInfo := do
  let lunId ← match e.idAttr with
    | none => Except.ok (-1 : Int)
    | some a => pyIntField a.toList
  Except.ok
    { lun_id := lunId
      backend := lunGetText e "backend_type" "unknown"
      serial := lunGetText e "serial_number" ""
      device_id := lunGetText e "device_id" ""
      size := lunGetInt e "size" 0 * lunGetInt e "blocksize" 512
      blocksize := lunGetInt e "blocksize" 512
      path := if lunGetText e "file" "" = "" then none else some (lunGetText e "file" "") }

/-- `StorageMonitor.list_ctl_luns`.  Outer `none` is a failed command
(`[]`); `some none` is an `ET.ParseError` (`[]`); otherwise each lun
element is converted, any `ValueError` propagating. -/
def list_ctl_luns (cmdOut : Option (Option (List LunElem))) : Except Unit (List LunInfo) :=
  match cmdOut with
  | none => Except.ok []
  | some none => Except.ok []
  | some (some elems) => elems.mapM buildLun

/-- Substring test (Python `needle in hay`). -/
def containsSub (needle : List Char) : List Char → Bool
  | [] => needle.isEmpty
  | c :: rest => needle.isPrefixOf (c :: rest) || containsSub needle rest

/-- `re.match(r"Port\s+(\d+):\s*(\w+)\s*(.*)$", line)`: the anchored
port-header pattern of `list_ctl_ports`.  Returns the port id, the word
`(\w+)` and the rest of the line. -/
def parsePortHeader (line : List Char) : Option (Nat × List Char × List Char) := do
  let s1 ← if "Port".toList.isPrefixOf line then some (line.drop 4) else none
  let s2 ← match s1 with
    | c :: rest => if pyWs c then some (rest.dropWhile pyWs) else none
    | [] => none
  let ds := s2.takeWhile Char.isDigit
  if ds = [] then none
  else
    let s3 := s2.dropWhile Char.isDigit
    match s3 with
    | ':' :: s4 =>
        let s5 := s4.dropWhile pyWs
        let w := s5.takeWhile (fun c => c.isAlphanum || c = '_')
        if w = [] then none
        else
          let s6 := (s5.drop w.length).dropWhile pyWs
          some (digitsVal ds, w, s6)
    | _ => none

/-- `re.search(r"(?:target|nqn):\s*(.+)", line, re.IGNORECASE)`, with the
captured group stripped as in the source. -/
def searchTargetName : List Char → Option (List Char)
  | [] => none
  | c :: rest =>
      let here := fun (kw : List Char) =>
        if kw.isPrefixOf ((c :: rest).map pyLower) then
          let after := (c :: rest).drop kw.length
          match after with
          | ':' :: tail =>
              let grp := tail.dropWhile pyWs
              if grp = [] then none else some (stripWs grp)
          | _ => none
        else none
      match here "target".toList with
      | some g => some g
      | none =>
          match here "nqn".toList with
          | some g => some g
          | none => searchTargetName rest

/-- The `for line in result.stdout.split("\n")` loop of
`list_ctl_ports`, carrying `current_port`. -/
def portsLoop : List (List Char) → Option PortInfo → List PortInfo
  | [], cur => match cur with
    | some p => [p]
    | none => []
  | rawLine :: rest, cur =>
      let line := stripWs rawLine
      match parsePortHeader line with
      | some (pid, ptype, tail) =>
          let flushed : List PortInfo := match cur with
            | some p => [p]
            | none => []
          flushed ++ portsLoop rest (some
            { port_id := pid
              port_type := (ptype.map pyLower).asString
              target_name := ""
              online := containsSub "Online".toList tail })
      | none =>
          match cur with
          | some p =>
              if containsSub "target:".toList (line.map pyLower)
                  || containsSub "nqn:".toList (line.map pyLower) then
                match searchTargetName line with
                | some nm => portsLoop rest (some { p with target_name := nm.asString })
                | none => portsLoop rest (some p)
              else portsLoop rest (some p)
          | none => portsLoop rest none

/-- `StorageMonitor.list_ctl_ports`. -/
def list_ctl_ports (cmdOut : Option String) : List PortInfo :=
  match cmdOut with
  | none => []
  | some out => portsLoop (out.toList.splitOn '\n') none

/-- `StorageMonitor.get_ctld_config`: `none` models an unreadable config
(missing file, or permission error with the sudo fallback failing), which
the source maps to the empty string. -/
def get_ctld_config (fileOut : Option String) : String :=
  match fileOut with
  | none => ""
  | some s => s

/-- The outputs the five sub-captures of `capture_state` observe. -/
structure Env where
  zfsListOut : Option String
  zfsSnapOut : Option String
  devlistOut : Option (Option (List LunElem))
  portlistOut : Option String
  ctlConfOut : Option String

/-- `StorageMonitor.capture_state`: the five sub-captures are invoked in
source order; an exception escaping one of them propagates. -/
def capture_state (env : Env) : Except Unit StorageState :=
  match list_datasets env.zfsListOut with
  | Except.error e => Except.error e
  | Except.ok ds =>
      match list_snapshots env.zfsSnapOut with
      | Except.error e => Except.error e
      | Except.ok sn =>
          match list_ctl_luns env.devlistOut with
          | Except.error e => Except.error e
          | Except.ok ls =>
              Except.ok
                { datasets := ds
                  snapshots := sn
                  luns := ls
                  ports := list_ctl_ports env.portlistOut
                  ctld_config := get_ctld_config env.ctlConfOut }

/-! ## `StorageMonitor.diff_state`

The source builds Python sets `{d.name for d in ...}` (here `Finset`s via
`toFinset`) and takes set differences; `config_changed` is a byte
comparison of the raw config texts. -/

structure DiffResult where
  datasets_added : Finset String
  datasets_removed : Finset String
  snapshots_added : Finset String
  snapshots_removed : Finset String
  luns_added : Finset Int
  luns_removed : Finset Int
  config_changed : Bool

def datasetKeys (s : StorageState) : Finset String :=
  (s.datasets.map DatasetInfo.name).toFinset

def snapshotKeys (s : StorageState) : Finset String :=
  (s.snapshots.map SnapshotInfo.name).toFinset

def lunKeys (s : StorageState) : Finset Int :=
  (s.luns.map LunInfo.lun_id).toFinset

def diff_state (before after : StorageState) : DiffResult :=
  { datasets_added := datasetKeys after \ datasetKeys before
    datasets_removed := datasetKeys before \ datasetKeys after
    snapshots_added := snapshotKeys after \ snapshotKeys before
    snapshots_removed := snapshotKeys before \ snapshotKeys after
    luns_added := lunKeys after \ lunKeys before
    luns_removed := lunKeys before \ lunKeys after
    config_changed := before.ctld_config != after.ctld_config }

/-! ## `resource_tracker.py` -/

inductive ResourceType where
  | POD
  | CLONE_PVC
  | SNAPSHOT
  | SOURCE_PVC
  | SECRET
deriving DecidableEq

/-- The `IntEnum` value; `IntEnum` members compare by this value. -/
def ResourceType.value : ResourceType → Nat
  | .POD => 1
  | .CLONE_PVC => 2
  | .SNAPSHOT => 3
  | .SOURCE_PVC => 4
  | .SECRET => 5

structure TrackedResource where
  kind : String
  name : String
  resource_type : ResourceType
  depends_on : Option String := none
deriving DecidableEq

/-- The sort key of `cleanup_all`: `(x[1].resource_type, -x[0])` in
ascending lexicographic order, on `enumerate(self.resources)` pairs. -/
def cleanupKeyLE (a b : Nat × TrackedResource) : Prop :=
  a.2.resource_type.value < b.2.resource_type.value ∨
    (a.2.resource_type.value = b.2.resource_type.value ∧ b.1 ≤ a.1)

instance : DecidableRel cleanupKeyLE := fun a b =>
  inferInstanceAs (Decidable (a.2.resource_type.value < b.2.resource_type.value ∨
    (a.2.resource_type.value = b.2.resource_type.value ∧ b.1 ≤ a.1)))

instance : IsTotal (Nat × TrackedResource) cleanupKeyLE :=
  ⟨by intro a b; unfold cleanupKeyLE; omega⟩

instance : IsTrans (Nat × TrackedResource) cleanupKeyLE :=
  ⟨by intro a b c; unfold cleanupKeyLE; omega⟩

/-- The order in which `cleanup_all` issues deletes: `enumerate`d
resources sorted by `(resource_type, -index)`.  The keys are pairwise
distinct (the indices are), so this order does not depend on the sorting
algorithm and coincides with Python's stable `sorted`. -/
def cleanupOrder (resources : List TrackedResource) : List (Nat × TrackedResource) :=
  List.insertionSort cleanupKeyLE resources.enum

/-- The resources in the order `cleanup_all` deletes them. -/
def cleanup_deletes (resources : List TrackedResource) : List TrackedResource :=
  (cleanupOrder resources).map Prod.snd

/-! ## `scripts/reconcile.py` -/

structure AgentVolume where
  id : String
  target_name : String := ""
deriving DecidableEq

/-- `find_orphans`: the accumulation loop over `agent_volumes`.  The
Kubernetes PV name set is modelled as a list used only for membership. -/
def find_orphans (agent_volumes : List AgentVolume) (k8s_pvs : List String) :
    List AgentVolume :=
  agent_volumes.foldl
    (fun orphans vol => if vol.id ∈ k8s_pvs then orphans else orphans ++ [vol]) []

/-- Outcome of one `client.delete_volume` call: `True`, `False`
("NOT FOUND"), or a raised exception (caught and printed). -/
inductive DeleteOutcome where
  | deleted
  | notFound
  | failed
deriving DecidableEq

/-- `delete_orphans`: in dry-run mode the count of would-be deletions,
otherwise the count of calls that returned `True`; per-volume exceptions
are swallowed. -/
def delete_orphans (orphans : List AgentVolume) (outcome : String → DeleteOutcome)
    (dry_run : Bool) : Nat :=
  if dry_run then orphans.length
  else (orphans.filter (fun v => outcome v.id == DeleteOutcome.deleted)).length

/-- `main` of `reconcile.py` after both fetches succeed: returns the exit
code and the `deleted` count reported.  `return 0` when no orphans;
otherwise `delete_orphans` runs (for real iff `--delete`) and the exit
code is `0 if args.delete else 1`. -/
def mainRun (agent_volumes : List AgentVolume) (k8s_pvs : List String)
    (deleteFlag : Bool) (outcome : String → DeleteOutcome) : Nat × Nat :=
  let orphans := find_orphans agent_volumes k8s_pvs
  if orphans = [] then (0, 0)
  else if deleteFlag then (0, delete_orphans orphans outcome false)
  else (1, delete_orphans orphans outcome true)

/-! ## The brace-matching block scanner

`list_iscsi_targets` and `list_auth_groups` share this loop: starting
just after a block's opening brace with `brace_count = 1`, the scan walks
the config, counts braces, and the body is `config[start : end - 1]` -
the characters up to but excluding the position where the count reaches
zero (or, on unbalanced input, excluding the last examined character). -/

/-- One step of the brace counter. -/
def braceStep (c : Char) (count : Nat) : Nat :=
  if c = '\x7b' then count + 1 else if c = '\x7d' then count - 1 else count

def extractAux : List Char → Nat → List Char
  | [], _ => []
  | c :: rest, count =>
      if braceStep c count = 0 ∨ rest = [] then []
      else c :: extractAux rest (braceStep c count)

/-- The body the scanner extracts when started at offset `start` of
`config` (the position right after the opening brace). -/
def extractBlockBody (config : List Char) (start : Nat) : List Char :=
  extractAux (config.drop start) 1

/-- Balanced-brace check at depth `d`: every closing brace has a matching
open one and the text returns to depth `d ... 0` overall. -/
def depthOk : List Char → Nat → Bool
  | [], d => d == 0
  | c :: rest, d =>
      if c = '\x7b' then depthOk rest (d + 1)
      else if c = '\x7d' then decide (d ≠ 0) && depthOk rest (d - 1)
      else depthOk rest d

/-! ## `list_auth_groups`

The `re` patterns of the auth-group parser, specialised to their exact
semantics on the character classes involved (all greedy sub-patterns here
consume from disjoint classes, so matching is deterministic). -/

def dropLit : List Char → List Char → Option (List Char)
  | [], s => some s
  | c :: cs, d :: ds => if c = d then dropLit cs ds else none
  | _ :: _, [] => none

/-- Match `auth-group\s+"([^"]+)"\s*\{` at the head of `s`; returns the
captured name and the remainder after the opening brace. -/
def matchAGHeader (s : List Char) : Option (List Char × List Char) := do
  let s1 ← dropLit "auth-group".toList s
  let s2 ← match s1 with
    | c :: rest => if pyWs c then some (rest.dropWhile pyWs) else none
    | [] => none
  let s3 ← dropLit ['\"'] s2
  let name := s3.takeWhile (fun c => c ≠ '\"')
  if name = [] then none
  else do
    let s4 ← dropLit ['\"'] (s3.drop name.length)
    let s5 ← dropLit ['\x7b'] (s4.dropWhile pyWs)
    some (name, s5)

/-- `finditer` of the auth-group header pattern: scan left to right, and
after a match continue at its end (the source then extracts the body
starting there).  `fuel` bounds the scan; `config.length` suffices. -/
def findAGBlocks : Nat → List Char → List (List Char × List Char)
  | 0, _ => []
  | _, [] => []
  | Nat.succ fuel, c :: rest =>
      match matchAGHeader (c :: rest) with
      | some (name, after) => (name, extractAux after 1) :: findAGBlocks fuel after
      | none => findAGBlocks fuel rest

/-- Match `KEY\s*=\s*"([^"]+)"` at the head of `s`. -/
def matchKeyVal (key : List Char) (s : List Char) : Option (List Char) := do
  let s1 ← dropLit key s
  let s2 ← dropLit ['='] (s1.dropWhile pyWs)
  let s3 ← dropLit ['\"'] (s2.dropWhile pyWs)
  let v := s3.takeWhile (fun c => c ≠ '\"')
  if v = [] then none
  else do
    let _ ← dropLit ['\"'] (s3.drop v.length)
    some v

/-- `re.search` for `KEY\s*=\s*"([^"]+)"`, optionally guarded by a
negative lookbehind whose reversed text is `negRev` (for
`(?<!mutual-)secret...` pass `negRev = reverse "mutual-"`).  `revPre` is
the reverse of the text before the current position. -/
def searchKV (negRev key : List Char) : List Char → List Char → Option (List Char)
  | _, [] => none
  | revPre, c :: rest =>
      match (if negRev.isEmpty || !(negRev.isPrefixOf revPre)
             then matchKeyVal key (c :: rest) else none) with
      | some v => some v
      | none => searchKV negRev key (c :: revPre) rest

/-- `re.search(r"chap-mutual\s*\[", body)` (or `chap\s*\[`). -/
def matchChapHdr (kw : List Char) (s : List Char) : Option Unit := do
  let s1 ← dropLit kw s
  let _ ← dropLit ['['] (s1.dropWhile pyWs)
  some ()

def searchChapHdr (kw : List Char) : List Char → Bool
  | [] => false
  | c :: rest => (matchChapHdr kw (c :: rest)).isSome || searchChapHdr kw rest

structure AuthGroupInfo where
  name : String
  chap_username : Option String := none
  chap_secret : Option String := none
  chap_mutual_username : Option String := none
  chap_mutual_secret : Option String := none
deriving DecidableEq

/-- Field extraction from one auth-group body, as in the source: the
`chap-mutual` branch searches `user`, `(?<!mutual-)secret`,
`mutual-user` and `mutual-secret`; the plain `chap` branch searches
`user` and `secret`. -/
def parseAuthGroupBody (name body : List Char) : AuthGroupInfo :=
  if searchChapHdr "chap-mutual".toList body then
    { name := name.asString
      chap_username := (searchKV [] "user".toList [] body).map List.asString
      chap_secret :=
        (searchKV "mutual-".toList.reverse "secret".toList [] body).map List.asString
      chap_mutual_username := (searchKV [] "mutual-user".toList [] body).map List.asString
      chap_mutual_secret := (searchKV [] "mutual-secret".toList [] body).map List.asString }
  else if searchChapHdr "chap".toList body then
    { name := name.asString
      chap_username := (searchKV [] "user".toList [] body).map List.asString
      chap_secret := (searchKV [] "secret".toList [] body).map List.asString }
  else { name := name.asString }

/-- `StorageMonitor.list_auth_groups`, as a function of the config text
it reads. -/
def list_auth_groups (config : String) : List AuthGroupInfo :=
  (findAGBlocks config.toList.length config.toList).map
    (fun p => parseAuthGroupBody p.1 p.2)

/-! ## Concrete scenarios used by the theorems below -/

/-- The mutual-CHAP auth-group block of the end-to-end scenario. -/
def agConfig : String :=
  "auth-group \"ag-x\" \x7b chap-mutual [ \x7b user = \"u1\"; secret = \"s1\"; mutual-user = \"u2\"; mutual-secret = \"s2\"; \x7d ] \x7d"

/-- The same block with the four credential fields in a chosen order. -/
def mkAGConfig (fs : List String) : String :=
  "auth-group \"ag-x\" \x7b chap-mutual [ \x7b " ++ String.intercalate " " fs
    ++ " \x7d ] \x7d"

def agFields : List String :=
  ["user = \"u1\";", "secret = \"s1\";", "mutual-user = \"u2\";", "mutual-secret = \"s2\";"]

def insertEverywhere (a : String) : List String → List (List String)
  | [] => [[a]]
  | b :: l => (a :: b :: l) :: (insertEverywhere a l).map (fun t => b :: t)

def allOrders : List String → List (List String)
  | [] => [[]]
  | a :: l => (allOrders l).flatMap (insertEverywhere a)

/-- In every one of the 24 field orders, the parsed `chap_secret` is the
plain `secret` value `"s1"`, never the `mutual-secret` one. -/
def agSecretRobust : Bool :=
  (allOrders agFields).all fun fs =>
    match list_auth_groups (mkAGConfig fs) with
    | [ag] => ag.chap_secret == some "s1"
    | _ => false

/-- A capture environment where the `zfs list` inventory command fails
and every other sub-capture succeeds on an empty backend. -/
def envFailDs : Env :=
  { zfsListOut := none, zfsSnapOut := some "", devlistOut := some (some []),
    portlistOut := some "", ctlConfOut := some "" }

/-- A capture environment where every sub-capture succeeds and the
backend is empty. -/
def envEmptyB : Env :=
  { envFailDs with zfsListOut := some "" }

/-- An environment in which every sub-capture fails. -/
def envAllNone : Env :=
  { zfsListOut := none, zfsSnapOut := none, devlistOut := none,
    portlistOut := none, ctlConfOut := none }

/-- Spec notion for the capture claim: some sub-capture of
`capture_state` failed (a command raised `CalledProcessError`, the XML
did not parse, or the config file was unreadable). -/
def subCaptureFailed (env : Env) : Prop :=
  env.zfsListOut = none ∨ env.zfsSnapOut = none ∨ env.devlistOut = none ∨
    env.devlistOut = some none ∨ env.portlistOut = none ∨ env.ctlConfOut = none

/-! ## Theorems -/

/-- C1 (counterexample): the spec's suffix table is wrong for this code.
`"1Gi"` does not match the suffix regex `^(\d+(?:\.\d+)?)\s*([KMGT])?$`
at all, and the bare `"1G"` scales by `1024 ^ 3`, not `1000 ^ 3`. -/
theorem parse_size_suffix_counterexample :
    parse_size "1Gi" ≠ Except.ok (1024 ^ 3) ∧ parse_size "1G" ≠ Except.ok (1000 ^ 3) ∧
    parse_size "500Mi" ≠ Except.ok (500 * 1024 ^ 2) :=
  ⟨by decide, by decide, by decide⟩

/-- C1 (amended): `parse_size` recognises only the bare suffixes
`K, M, G, T`, each scaling by powers of 1024; an `i`-suffixed string
fails the suffix grammar and yields 0, as do `"-"` and `""`. -/
theorem parse_size_suffix_values :
    parse_size "1G" = Except.ok (1024 ^ 3) ∧ parse_size "1Gi" = Except.ok 0 ∧
    parse_size "500Mi" = Except.ok 0 ∧
    parse_size "500M" = Except.ok (500 * 1024 ^ 2) ∧
    parse_size "1K" = Except.ok 1024 ∧ parse_size "1T" = Except.ok (1024 ^ 4) ∧
    parse_size "-" = Except.ok 0 ∧ parse_size "" = Except.ok 0 := by
  refine ⟨by decide, by decide, by decide, by decide, by decide, by decide, by decide, by decide⟩

set_option maxRecDepth 100000 in
/-- C9 (counterexample): `int("-5")` succeeds in Python, so
`parse_size "-5" = -5` - not a non-negative (`uint64`) value; and
`parse_size` is not total: on `"1" ++ 309 * "0" ++ "K"` the float
conversion overflows to `inf` and `int(inf)` raises `OverflowError`. -/
theorem parse_size_negative_counterexample :
    parse_size "-5" = Except.ok (-5) ∧ (-5 : Int) < 0 ∧
    parse_size ("1" ++ String.mk (List.replicate 309 '0') ++ "K") = Except.error () :=
  ⟨rfl, by decide, rfl⟩

/-- C9 (amended): `parse_size` raises exactly when the suffix-grammar
path's float value overflows the binary64 range (`OverflowError` from
`int(inf)`); every other input returns a value: an input that is neither
empty, `"-"`, a Python-parseable integer, nor a match of the suffix
grammar yields 0, and a returned value is non-negative unless the input
parses as a negative Python integer, which is returned unchanged. -/
theorem parse_size_total_default (s : String) :
    (∀ n : Int, parse_size s = Except.ok n → n < 0 → pyIntParse s.data = some n) ∧
    (pyIntParse s.data = none → ∀ n : Int, parse_size s = Except.ok n → 0 ≤ n) ∧
    (s.data ≠ [] → s.data ≠ ['-'] → pyIntParse s.data = none →
      suffixMatch (s.data.map pyUpper) = none → parse_size s = Except.ok 0) ∧
    (parse_size s = Except.error () ↔
      s.data ≠ [] ∧ s.data ≠ ['-'] ∧ pyIntParse s.data = none ∧
      ∃ num den suf, suffixMatch (s.data.map pyUpper) = some (num, den, suf) ∧
        num ≠ 0 ∧ 1024 ≤ (floatBits num den).2 + (natLog2 (sizeMultiplier suf) : Int)) := by
  by_cases h1 : s.data = []
  · have hz : parse_size s = Except.ok 0 := by
      unfold parse_size
      rw [if_pos (Or.inl h1)]
    refine ⟨?_, ?_, fun hc => absurd h1 hc, ?_⟩
    · intro n hn hneg
      rw [hz] at hn
      exact absurd hneg (by have := Except.ok.inj hn; omega)
    · intro _ n hn
      rw [hz] at hn
      have := Except.ok.inj hn
      omega
    · constructor
      · intro he
        rw [hz] at he
        exact Except.noConfusion he
      · rintro ⟨hc, -⟩
        exact absurd h1 hc
  by_cases h2 : s.data = ['-']
  · have hz : parse_size s = Except.ok 0 := by
      unfold parse_size
      rw [if_pos (Or.inr h2)]
    refine ⟨?_, ?_, fun _ hc => absurd h2 hc, ?_⟩
    · intro n hn hneg
      rw [hz] at hn
      exact absurd hneg (by have := Except.ok.inj hn; omega)
    · intro _ n hn
      rw [hz] at hn
      have := Except.ok.inj hn
      omega
    · constructor
      · intro he
        rw [hz] at he
        exact Except.noConfusion he
      · rintro ⟨-, hc, -⟩
        exact absurd h2 hc
  have hcond : ¬ (s.data = [] ∨ s.data = ['-']) := fun h => h.elim h1 h2
  cases hp : pyIntParse s.data with
  | some n =>
      have hv : parse_size s = Except.ok n := by
        unfold parse_size
        rw [if_neg hcond, hp]
      refine ⟨?_, fun hc => Option.noConfusion hc, fun _ _ hc => Option.noConfusion hc, ?_⟩
      · intro n2 hn2 _
        rw [hv] at hn2
        rw [Except.ok.inj hn2]
      · constructor
        · intro he
          rw [hv] at he
          exact Except.noConfusion he
        · rintro ⟨-, -, hc, -⟩
          exact Option.noConfusion hc
  | none =>
      cases hm : suffixMatch (s.data.map pyUpper) with
      | some t =>
          obtain ⟨num0, den0, suf0⟩ := t
          have hv : parse_size s = floatToInt num0 den0 (sizeMultiplier suf0) := by
            unfold parse_size
            rw [if_neg hcond, hp, hm]
          by_cases ha0 : num0 = 0
          · have hv0 : parse_size s = Except.ok 0 := by
              rw [hv]
              unfold floatToInt
              rw [if_pos ha0]
            refine ⟨?_, ?_, fun _ _ _ hc => Option.noConfusion hc, ?_⟩
            · intro n hn hneg
              rw [hv0] at hn
              exact absurd hneg (by have := Except.ok.inj hn; omega)
            · intro _ n hn
              rw [hv0] at hn
              have := Except.ok.inj hn
              omega
            · constructor
              · intro he
                rw [hv0] at he
                exact Except.noConfusion he
              · rintro ⟨-, -, -, num, den, suf, hc, hnum0, -⟩
                have h3 := Option.some.inj hc
                rw [Prod.mk.injEq, Prod.mk.injEq] at h3
                obtain ⟨rfl, rfl, rfl⟩ := h3
                exact absurd ha0 hnum0
          by_cases hof : (1024 : Int) ≤ (floatBits num0 den0).2 + (natLog2 (sizeMultiplier suf0) : Int)
          · have hvE : parse_size s = Except.error () := by
              rw [hv]
              unfold floatToInt
              rw [if_neg ha0, if_pos hof]
            refine ⟨?_, ?_, fun _ _ _ hc => Option.noConfusion hc, ?_⟩
            · intro n hn _
              rw [hvE] at hn
              exact Except.noConfusion hn
            · intro _ n hn
              rw [hvE] at hn
              exact Except.noConfusion hn
            · exact ⟨fun _ => ⟨h1, h2, rfl, num0, den0, suf0, rfl, ha0, hof⟩, fun _ => hvE⟩
          · have hvk : ∃ k : Nat, parse_size s = Except.ok ((k : Nat) : Int) := by
              rw [hv]
              unfold floatToInt
              rw [if_neg ha0, if_neg hof]
              by_cases h52 : (52 : Int) ≤ (floatBits num0 den0).2 + (natLog2 (sizeMultiplier suf0) : Int)
              · rw [if_pos h52]
                exact ⟨_, rfl⟩
              · rw [if_neg h52]
                exact ⟨_, rfl⟩
            obtain ⟨k, hk⟩ := hvk
            refine ⟨?_, ?_, fun _ _ _ hc => Option.noConfusion hc, ?_⟩
            · intro n hn hneg
              rw [hk] at hn
              exact absurd hneg (by have := Except.ok.inj hn; omega)
            · intro _ n hn
              rw [hk] at hn
              have := Except.ok.inj hn
              omega
            · constructor
              · intro he
                rw [hk] at he
                exact Except.noConfusion he
              · rintro ⟨-, -, -, num, den, suf, hc, -, hof2⟩
                have h3 := Option.some.inj hc
                rw [Prod.mk.injEq, Prod.mk.injEq] at h3
                obtain ⟨rfl, rfl, rfl⟩ := h3
                exact absurd hof2 hof
      | none =>
          have hv : parse_size s = Except.ok 0 := by
            unfold parse_size
            rw [if_neg hcond, hp, hm]
          refine ⟨?_, ?_, fun _ _ _ _ => hv, ?_⟩
          · intro n hn hneg
            rw [hv] at hn
            exact absurd hneg (by have := Except.ok.inj hn; omega)
          · intro _ n hn
            rw [hv] at hn
            have := Except.ok.inj hn
            omega
          · constructor
            · intro he
              rw [hv] at he
              exact Except.noConfusion he
            · rintro ⟨-, -, -, num, den, suf, hc, -⟩
              exact Option.noConfusion hc

set_option maxRecDepth 100000 in
/-- C9 (witness for `parse_size_total_default`): a negative integer
string, an input failing both grammars, and the overflowing input. -/
theorem parse_size_total_default_witness :
    pyIntParse "-7".data = some (-7) ∧ parse_size "zzz" = Except.ok 0 ∧
    parse_size ("1" ++ String.mk (List.replicate 309 '0') ++ "K") = Except.error () := by
  refine ⟨?_, ?_, ?_⟩
  · exact (parse_size_total_default "-7").1 (-7) (by decide) (by decide)
  · exact (parse_size_total_default "zzz").2.2.1 (by decide) (by decide) (by decide) (by decide)
  · exact ((parse_size_total_default
        ("1" ++ String.mk (List.replicate 309 '0') ++ "K")).2.2.2).mpr
      ⟨by decide, by decide, by decide, _, _, _, rfl, by decide, by decide⟩

/-- C8: the mutual-CHAP auth-group block parses to exactly one group
with `chap_username = "u1"`, `chap_secret = "s1"`,
`chap_mutual_username = "u2"`, `chap_mutual_secret = "s2"`; and in every
one of the 24 orders of the four credential fields, the negative
lookbehind keeps `chap_secret = "s1"`, never the mutual secret. -/
theorem auth_group_chap_mutual_parse :
    list_auth_groups agConfig =
      [{ name := "ag-x", chap_username := some "u1", chap_secret := some "s1",
         chap_mutual_username := some "u2", chap_mutual_secret := some "s2" }] ∧
    agSecretRobust = true :=
  ⟨by decide, by decide⟩

/-- C4 (counterexample): with `--delete`, one orphan found and its
deletion failing (exception swallowed by `delete_orphans`), the run
still exits 0 while zero volumes were deleted. -/
theorem reconcile_exit_counterexample :
    (mainRun [⟨"pv-orphan", ""⟩] [] true (fun _ => DeleteOutcome.failed)).1 = 0 ∧
    (mainRun [⟨"pv-orphan", ""⟩] [] true (fun _ => DeleteOutcome.failed)).2 = 0 ∧
    find_orphans [⟨"pv-orphan", ""⟩] [] = [⟨"pv-orphan", ""⟩] :=
  ⟨rfl, rfl, rfl⟩

/-- C4 (amended): the exit code is 0 iff no orphans were found or the
`--delete` flag was given; deletion failures do not affect it. -/
theorem reconcile_exit_code (agent_volumes : List AgentVolume) (k8s_pvs : List String)
    (deleteFlag : Bool) (outcome : String → DeleteOutcome) :
    (mainRun agent_volumes k8s_pvs deleteFlag outcome).1 = 0 ↔
      find_orphans agent_volumes k8s_pvs = [] ∨ deleteFlag = true := by
  unfold mainRun
  by_cases h : find_orphans agent_volumes k8s_pvs = []
  · simp [h]
  · cases deleteFlag <;> simp [h]

/-- The `find_orphans` loop with an arbitrary accumulator. -/
theorem find_orphans_foldl (k8s_pvs : List String) (l : List AgentVolume) :
    ∀ acc : List AgentVolume,
      l.foldl (fun orphans vol => if vol.id ∈ k8s_pvs then orphans else orphans ++ [vol]) acc =
        acc ++ l.filter (fun v => decide (v.id ∉ k8s_pvs)) := by
  induction l with
  | nil => intro acc; simp
  | cons v l ih =>
      intro acc
      by_cases h : v.id ∈ k8s_pvs
      · simp [List.foldl, h, ih, List.filter]
      · simp [List.foldl, h, ih, List.filter]

/-- C10: `find_orphans` is the stable filter of its input: it returns
exactly the volumes whose id is not among the Kubernetes PV names, as a
subsequence of the input with duplicates preserved. -/
theorem find_orphans_stable_filter (agent_volumes : List AgentVolume)
    (k8s_pvs : List String) :
    find_orphans agent_volumes k8s_pvs =
      agent_volumes.filter (fun v => decide (v.id ∉ k8s_pvs)) ∧
    (find_orphans agent_volumes k8s_pvs).Sublist agent_volumes ∧
    (∀ v : AgentVolume, v ∈ find_orphans agent_volumes k8s_pvs ↔
      v ∈ agent_volumes ∧ v.id ∉ k8s_pvs) ∧
    (∀ v : AgentVolume, (find_orphans agent_volumes k8s_pvs).count v =
      if v.id ∈ k8s_pvs then 0 else agent_volumes.count v) := by
  have hf : find_orphans agent_volumes k8s_pvs =
      agent_volumes.filter (fun v => decide (v.id ∉ k8s_pvs)) := by
    unfold find_orphans
    rw [find_orphans_foldl]
    simp
  refine ⟨hf, hf ▸ List.filter_sublist _, ?_, ?_⟩
  · intro v
    rw [hf, List.mem_filter]
    simp
  · intro v
    rw [hf]
    by_cases h : v.id ∈ k8s_pvs
    · rw [if_pos h, List.count_eq_zero]
      intro hmem
      rw [List.mem_filter] at hmem
      simp [h] at hmem
    · rw [if_neg h, List.count_filter (by simp [h])]

/-- C6: `diff_state` computes, per entity kind, exactly the key-set
differences `after \ before` (added) and `before \ after` (removed),
keyed by dataset/snapshot name and LUN id; added and removed are
disjoint and their union is the symmetric difference of the key sets;
`config_changed` holds iff the raw config texts differ; and the diff of
a state with itself is empty in all four categories. -/
theorem diff_state_spec (before after : StorageState) :
    ((diff_state before after).datasets_added = datasetKeys after \ datasetKeys before ∧
      (diff_state before after).datasets_removed = datasetKeys before \ datasetKeys after ∧
      (diff_state before after).snapshots_added = snapshotKeys after \ snapshotKeys before ∧
      (diff_state before after).snapshots_removed = snapshotKeys before \ snapshotKeys after ∧
      (diff_state before after).luns_added = lunKeys after \ lunKeys before ∧
      (diff_state before after).luns_removed = lunKeys before \ lunKeys after) ∧
    (Disjoint (diff_state before after).datasets_added
        (diff_state before after).datasets_removed ∧
      Disjoint (diff_state before after).snapshots_added
        (diff_state before after).snapshots_removed ∧
      Disjoint (diff_state before after).luns_added
        (diff_state before after).luns_removed) ∧
    ((diff_state before after).datasets_added ∪ (diff_state before after).datasets_removed =
        (datasetKeys before ∪ datasetKeys after) \ (datasetKeys before ∩ datasetKeys after) ∧
      (diff_state before after).snapshots_added ∪ (diff_state before after).snapshots_removed =
        (snapshotKeys before ∪ snapshotKeys after) \ (snapshotKeys before ∩ snapshotKeys after) ∧
      (diff_state before after).luns_added ∪ (diff_state before after).luns_removed =
        (lunKeys before ∪ lunKeys after) \ (lunKeys before ∩ lunKeys after)) ∧
    ((diff_state before after).config_changed = true ↔
      before.ctld_config ≠ after.ctld_config) ∧
    ((diff_state before before).datasets_added = ∅ ∧
      (diff_state before before).datasets_removed = ∅ ∧
      (diff_state before before).snapshots_added = ∅ ∧
      (diff_state before before).snapshots_removed = ∅ ∧
      (diff_state before before).luns_added = ∅ ∧
      (diff_state before before).luns_removed = ∅ ∧
      (diff_state before before).config_changed = false) := by
  refine ⟨⟨rfl, rfl, rfl, rfl, rfl, rfl⟩,
    ⟨disjoint_sdiff_sdiff, disjoint_sdiff_sdiff, disjoint_sdiff_sdiff⟩,
    ⟨?_, ?_, ?_⟩, ?_, ?_⟩
  · ext x
    simp only [diff_state, Finset.mem_union, Finset.mem_sdiff, Finset.mem_inter]
    tauto
  · ext x
    simp only [diff_state, Finset.mem_union, Finset.mem_sdiff, Finset.mem_inter]
    tauto
  · ext x
    simp only [diff_state, Finset.mem_union, Finset.mem_sdiff, Finset.mem_inter]
    tauto
  · simp [diff_state, bne_iff_ne]
  · simp [diff_state, Finset.sdiff_self]

/-- A line with fewer than 8 tab-separated fields is skipped
(`continue`), not an error and not a record. -/
theorem parseDatasetLine_short (t : List Char) (h : (t.splitOn '\t').length < 8) :
    parseDatasetLine t = Except.ok none := by
  unfold parseDatasetLine
  by_cases ht : t = []
  · rw [if_pos ht]
  · rw [if_neg ht, if_pos h]

/-- C5 (counterexample): one well-formed line followed by a truncated
one parses to the single well-formed record - a partial result, not the
empty sequence the claim requires. -/
theorem list_datasets_partial_counterexample :
    list_datasets (some "tank/csi/pvc-1\tvolume\t1024\t2048\t1024\t4096\t-\t-\nBAD") =
      Except.ok [{ name := "tank/csi/pvc-1", type := "volume", used := 1024,
                   available := 2048, referenced := 1024, volsize := some 4096,
                   origin := none, clones := [] }] ∧
    list_datasets (some "tank/csi/pvc-1\tvolume\t1024\t2048\t1024\t4096\t-\t-\nBAD") ≠
      Except.ok [] := by
  constructor
  · rfl
  · intro hcontra
    rw [show list_datasets (some "tank/csi/pvc-1\tvolume\t1024\t2048\t1024\t4096\t-\t-\nBAD") =
        Except.ok [{ name := "tank/csi/pvc-1", type := "volume", used := 1024,
                     available := 2048, referenced := 1024, volsize := some 4096,
                     origin := none, clones := [] }] from rfl] at hcontra
    exact List.cons_ne_nil _ _ (Except.ok.inj hcontra)

/-- C5 (amended): a truncated record line (fewer than 8 tab-separated
fields, including the empty line) is skipped individually: removing it
from the raw output does not change the parse; the remaining lines still
produce their records. -/
theorem parse_dataset_lines_skip_short (t : List Char)
    (h : (t.splitOn '\t').length < 8) (pre post : List (List Char)) :
    parseDatasetLines (pre ++ t :: post) = parseDatasetLines (pre ++ post) := by
  induction pre with
  | nil =>
      have hpt := parseDatasetLine_short t h
      simp only [List.nil_append, parseDatasetLines, hpt]
      cases parseDatasetLines post <;> rfl
  | cons l pre ih =>
      simp only [List.cons_append, parseDatasetLines]
      have ih2 : parseDatasetLines (pre.append (t :: post)) =
          parseDatasetLines (pre.append post) := ih
      rw [ih2]

/-- C5 (witness for `parse_dataset_lines_skip_short`). -/
theorem parse_dataset_lines_skip_short_witness :
    (("ab\tc".toList.splitOn '\t').length < 8) ∧
    parseDatasetLines (["x".toList] ++ "ab\tc".toList :: []) =
      parseDatasetLines (["x".toList] ++ []) :=
  ⟨by decide, parse_dataset_lines_skip_short "ab\tc".toList (by decide) ["x".toList] []⟩

/-- C2 (counterexample): a capture whose `zfs list` sub-capture failed
is byte-for-byte identical to a capture taken on an empty backend where
every sub-capture succeeded: the failure is not surfaced. -/
theorem capture_state_counterexample :
    capture_state envFailDs = capture_state envEmptyB ∧
    subCaptureFailed envFailDs ∧ ¬ subCaptureFailed envEmptyB := by
  refine ⟨rfl, Or.inl rfl, ?_⟩
  intro h
  rcases h with h | h | h | h | h | h <;> simp [envEmptyB, envFailDs] at h

/-- C2 (amended): `capture_state` swallows sub-capture failures: a
failed inventory command contributes an empty list and an unreadable
config contributes the empty string, so the resulting state is
indistinguishable from one taken on an empty backend. -/
theorem capture_state_silent_on_failure (env : Env) (st : StorageState)
    (h : capture_state env = Except.ok st) :
    (env.zfsListOut = none → st.datasets = []) ∧
    (env.zfsSnapOut = none → st.snapshots = []) ∧
    (env.devlistOut = none → st.luns = []) ∧
    (env.portlistOut = none → st.ports = []) ∧
    (env.ctlConfOut = none → st.ctld_config = "") := by
  unfold capture_state at h
  cases hds : list_datasets env.zfsListOut with
  | error e =>
      simp only [hds] at h
      exact Except.noConfusion h
  | ok ds =>
      simp only [hds] at h
      cases hsn : list_snapshots env.zfsSnapOut with
      | error e =>
          simp only [hsn] at h
          exact Except.noConfusion h
      | ok sn =>
          simp only [hsn] at h
          cases hls : list_ctl_luns env.devlistOut with
          | error e =>
              simp only [hls] at h
              exact Except.noConfusion h
          | ok ls =>
              simp only [hls] at h
              have hst := Except.ok.inj h
              subst hst
              refine ⟨?_, ?_, ?_, ?_, ?_⟩
              · intro hn
                rw [hn] at hds
                exact (Except.ok.inj hds).symm
              · intro hn
                rw [hn] at hsn
                exact (Except.ok.inj hsn).symm
              · intro hn
                rw [hn] at hls
                exact (Except.ok.inj hls).symm
              · intro hn
                show list_ctl_ports env.portlistOut = []
                rw [hn]
                rfl
              · intro hn
                show get_ctld_config env.ctlConfOut = ""
                rw [hn]
                rfl

/-- C2 (witness for `capture_state_silent_on_failure`). -/
theorem capture_state_silent_on_failure_witness :
    (StorageState.mk [] [] [] [] "").datasets = [] ∧
    (StorageState.mk [] [] [] [] "").snapshots = [] ∧
    (StorageState.mk [] [] [] [] "").luns = [] ∧
    (StorageState.mk [] [] [] [] "").ports = [] ∧
    (StorageState.mk [] [] [] [] "").ctld_config = "" :=
  have h := capture_state_silent_on_failure envAllNone (StorageState.mk [] [] [] [] "") rfl
  ⟨h.1 rfl, h.2.1 rfl, h.2.2.1 rfl, h.2.2.2.1 rfl, h.2.2.2.2 rfl⟩

/-- The scan of the brace loop on `body ++ "}" ++ rest` starting at
count `d + 1`, where `body` is brace-balanced at depth `d`, stops
exactly at the closing brace and yields `body`. -/
theorem extractAux_balanced (body : List Char) :
    ∀ (d : Nat) (rest : List Char), depthOk body d = true →
      extractAux (body ++ '\x7d' :: rest) (d + 1) = body := by
  induction body with
  | nil =>
      intro d rest h
      have hd : d = 0 := by simpa [depthOk] using h
      subst hd
      simp [extractAux, braceStep]
  | cons c body ih =>
      intro d rest h
      by_cases hb : c = '\x7b'
      · subst hb
        have h2 : depthOk body (d + 1) = true := by simpa [depthOk] using h
        have hbs : braceStep '\x7b' (d + 1) = (d + 1) + 1 := by simp [braceStep]
        simp only [List.cons_append, extractAux, hbs]
        rw [if_neg (by simp)]
        have hres : extractAux (body.append ('\x7d' :: rest)) ((d + 1) + 1) = body :=
          ih (d + 1) rest h2
        rw [hres]
      by_cases hb2 : c = '\x7d'
      · subst hb2
        simp only [depthOk, if_neg (by decide : ¬('\x7d' = '\x7b')), if_pos rfl,
          Bool.and_eq_true, decide_eq_true_eq, if_true] at h
        obtain ⟨hd0, hrec⟩ := h
        have hbs : braceStep '\x7d' (d + 1) = d := by simp [braceStep]
        simp only [List.cons_append, extractAux, hbs]
        rw [if_neg (by simp [hd0])]
        have hres : extractAux (body.append ('\x7d' :: rest)) ((d - 1) + 1) = body :=
          ih (d - 1) rest hrec
        have hd1 : (d - 1) + 1 = d := by omega
        rw [hd1] at hres
        rw [hres]
      · have h2 : depthOk body d = true := by
          rw [depthOk] at h
          simpa [hb, hb2] using h
        have hbs : braceStep c (d + 1) = d + 1 := by simp [braceStep, hb, hb2]
        simp only [List.cons_append, extractAux, hbs]
        rw [if_neg (by simp)]
        have hres : extractAux (body.append ('\x7d' :: rest)) (d + 1) = body :=
          ih d rest h2
        rw [hres]

/-- C7: for a brace-balanced body, the scanner's extracted block body is
exactly the substring between the opening brace and its matching closing
brace, at any nesting depth; re-wrapping the extracted body in braces
behind the same header and re-parsing yields the same body. -/
theorem block_scanner_round_trip (pre body rest : List Char)
    (h : depthOk body 0 = true) :
    extractBlockBody (pre ++ '\x7b' :: (body ++ '\x7d' :: rest)) (pre.length + 1) = body ∧
    extractBlockBody (pre ++ '\x7b' ::
        (extractBlockBody (pre ++ '\x7b' :: (body ++ '\x7d' :: rest)) (pre.length + 1)
          ++ '\x7d' :: rest)) (pre.length + 1) = body := by
  have hdrop : ∀ s : List Char, (pre ++ '\x7b' :: s).drop (pre.length + 1) = s := by
    intro s
    rw [List.append_cons]
    exact List.drop_left' (by simp)
  have h1 : extractBlockBody (pre ++ '\x7b' :: (body ++ '\x7d' :: rest))
      (pre.length + 1) = body := by
    unfold extractBlockBody
    rw [hdrop]
    exact extractAux_balanced body 0 rest h
  refine ⟨h1, ?_⟩
  rw [h1]
  exact h1

/-- C7 (witness for `block_scanner_round_trip`): a nested `lun` block
inside a `target` block. -/
theorem block_scanner_round_trip_witness :
    depthOk " lun \x7b 0 \x7b number = 0; \x7d \x7d ".toList 0 = true ∧
    extractBlockBody ("target \"iqn.t\" ".toList ++ '\x7b' ::
        (" lun \x7b 0 \x7b number = 0; \x7d \x7d ".toList ++ '\x7d' :: " tail".toList))
      ("target \"iqn.t\" ".toList.length + 1) =
      " lun \x7b 0 \x7b number = 0; \x7d \x7d ".toList :=
  ⟨by decide, (block_scanner_round_trip "target \"iqn.t\" ".toList
    " lun \x7b 0 \x7b number = 0; \x7d \x7d ".toList " tail".toList (by decide)).1⟩

/-- `ResourceType.value` is injective. -/
theorem resourceTypeValue_inj {a b : ResourceType} (h : a.value = b.value) : a = b := by
  revert h
  cases a <;> cases b <;> decide

/-- C3: `cleanup_all` issues deletes as a permutation of the tracked
resources in which, between any earlier and any later delete, either the
earlier one's priority class is strictly smaller
(`POD < CLONE_PVC < SNAPSHOT < SOURCE_PVC < SECRET`), or the classes are
equal and the earlier one was tracked strictly later (LIFO within a
class). -/
theorem cleanup_all_order (resources : List TrackedResource) :
    (cleanupOrder resources).Perm resources.enum ∧
    cleanup_deletes resources = (cleanupOrder resources).map Prod.snd ∧
    (ResourceType.POD.value < ResourceType.CLONE_PVC.value ∧
      ResourceType.CLONE_PVC.value < ResourceType.SNAPSHOT.value ∧
      ResourceType.SNAPSHOT.value < ResourceType.SOURCE_PVC.value ∧
      ResourceType.SOURCE_PVC.value < ResourceType.SECRET.value) ∧
    (cleanupOrder resources).Pairwise (fun a b =>
      a.2.resource_type.value < b.2.resource_type.value ∨
        (a.2.resource_type = b.2.resource_type ∧ b.1 < a.1)) := by
  refine ⟨List.perm_insertionSort _ _, rfl, by decide, ?_⟩
  have hsorted : (cleanupOrder resources).Pairwise cleanupKeyLE :=
    List.sorted_insertionSort cleanupKeyLE resources.enum
  have hperm := List.perm_insertionSort cleanupKeyLE resources.enum
  have h2 : (resources.enum.map Prod.fst).Nodup := by
    rw [List.enum_map_fst]
    exact List.nodup_range _
  have hnodup : ((cleanupOrder resources).map Prod.fst).Nodup :=
    ((hperm.map Prod.fst).nodup_iff).mpr h2
  have hne : (cleanupOrder resources).Pairwise (fun a b => a.1 ≠ b.1) :=
    List.pairwise_map.mp hnodup
  refine (hsorted.and hne).imp ?_
  intro a b hx
  rcases hx with ⟨hle, hab⟩
  rcases hle with hlt | ⟨hveq, hge⟩
  · exact Or.inl hlt
  · exact Or.inr ⟨resourceTypeValue_inj hveq, by omega⟩

end FreebsdCsi


